import Mathlib

/-!
Shallow embedding of the drone-dockerhub-ecr plugin (src/docker.go).

An external-process invocation (Go `*exec.Cmd`) is modelled as its argument
vector `args` — which, as in Go's `exec.Command(name, arg...)`, includes the
program name as element 0 — together with an optional standard-input payload.
Running a command is modelled by an oracle `run : Cmd → Option String`
returning `none` on exit status zero and `some err` on a non-zero exit.
-/

namespace DroneDockerhubEcr

/-- An external-process invocation: argument vector (program name first, as in
Go `exec.Cmd.Args`) plus optional standard-input payload (`cmd.Stdin`). -/
structure Cmd where
  args : List String
  stdin : Option String := none
deriving DecidableEq

/-- Docker daemon parameters (Go struct `Daemon`, src/docker.go lines 13-27). -/
structure Daemon where
  Registry : String := ""
  Mirror : String := ""
  Insecure : Bool := false
  StorageDriver : String := ""
  StoragePath : String := ""
  Disabled : Bool := false
  Debug : Bool := false
  Bip : String := ""
  DNS : List String := []
  DNSSearch : List String := []
  MTU : String := ""
  IPv6 : Bool := false
  Experimental : Bool := false
deriving DecidableEq

/-- Docker login parameters (Go struct `Login`, src/docker.go lines 30-35). -/
structure Login where
  Registry : String := ""
  Username : String := ""
  Password : String := ""
  Email : String := ""
deriving DecidableEq

/-- Pull parameters (Go struct `Pull`, src/docker.go lines 37-40). -/
structure Pull where
  Repo : String := ""
  Sha : String := ""
deriving DecidableEq

/-- Docker build parameters (Go struct `Build`, src/docker.go lines 43-61). -/
structure Build where
  Remote : String := ""
  Name : String := ""
  Dockerfile : String := ""
  Context : String := ""
  Tags : List String := []
  Args : List String := []
  ArgsEnv : List String := []
  Target : String := ""
  Squash : Bool := false
  Pull : Bool := false
  CacheFrom : List String := []
  Compress : Bool := false
  Repo : String := ""
  LabelSchema : List String := []
  Labels : List String := []
  NoCache : Bool := false
  AddHost : List String := []
deriving DecidableEq

/-- Plugin parameters (Go struct `Plugin`, src/docker.go lines 64-71). -/
structure Plugin where
  Login : Login := {}
  Pull : Pull := {}
  Daemon : Daemon := {}
  Dryrun : Bool := false
  Cleanup : Bool := false
  Tags : List String := []
deriving DecidableEq

/-- Modelled from the spec: the path of the external engine CLI executable.
Its defining Go source file is not under src/; no claim depends on its value,
only on the positions of the arguments that follow it. -/
def dockerExe : String := "docker"

/-- Modelled from the spec: the path of the external daemon executable.
Its defining Go source file is not under src/; no claim depends on its value. -/
def dockerdExe : String := "dockerd"

/-- `commandLoginEmail` (src/docker.go lines 163-173): login invocation with the
`-e` email argument pair; the password is the standard-input payload. -/
def commandLoginEmail (login : Login) : Cmd :=
  { args := [dockerExe, "login",
             "-u", login.Username,
             "--password-stdin",
             "-e", login.Email,
             login.Registry],
    stdin := some login.Password }

/-- `commandLogin` (src/docker.go lines 140-152): dispatches to
`commandLoginEmail` when an email is supplied; the password is the
standard-input payload, never an argument. -/
def commandLogin (login : Login) : Cmd :=
  if login.Email ≠ "" then
    commandLoginEmail login
  else
    { args := [dockerExe, "login",
               "-u", login.Username,
               "--password-stdin",
               login.Registry],
      stdin := some login.Password }

/-- `isCommandPull` (src/docker.go lines 155-157): args match
`docker pull IMAGE` when the vector is longer than 2 and element 1 is
`pull`. -/
def isCommandPull (args : List String) : Bool :=
  decide (2 < args.length) && (args.getD 1 "" == "pull")

/-- `commandPull` (src/docker.go lines 159-161). -/
def commandPull (pull : Pull) : Cmd :=
  { args := [dockerExe, "pull", pull.Repo ++ "@" ++ pull.Sha] }

/-- `commandVersion` (src/docker.go lines 176-178). -/
def commandVersion : Cmd :=
  { args := [dockerExe, "version"] }

/-- `commandInfo` (src/docker.go lines 181-183). -/
def commandInfo : Cmd :=
  { args := [dockerExe, "info"] }

/-- `commandTag` (src/docker.go lines 291-299): source is `repo@sha`, target is
`registry/repo:tag` (Go `fmt.Sprintf` of `%s` verbs is string concatenation). -/
def commandTag (pull : Pull) (tag : String) (registry : String) : Cmd :=
  { args := [dockerExe, "tag",
             pull.Repo ++ "@" ++ pull.Sha,
             registry ++ "/" ++ pull.Repo ++ ":" ++ tag] }

/-- `commandPush` (src/docker.go lines 302-305). -/
def commandPush (pull : Pull) (tag : String) (registry : String) : Cmd :=
  { args := [dockerExe, "push",
             registry ++ "/" ++ pull.Repo ++ ":" ++ tag] }

/-- `commandRmi` (src/docker.go lines 345-348). -/
def commandRmi (pull : Pull) : Cmd :=
  { args := [dockerExe, "rmi", pull.Repo ++ "@" ++ pull.Sha] }

/-- `commandPrune` (src/docker.go lines 341-343). -/
def commandPrune : Cmd :=
  { args := [dockerExe, "system", "prune", "-f"] }

/-- `commandDaemon` (src/docker.go lines 308-339), mirroring the imperative
appends of the Go function; the DNS loops are rendered as `foldl` over the
lists, exactly as the Go `for` loops extend `args`. -/
def commandDaemon (daemon : Daemon) : Cmd :=
  let args : List String := ["--data-root", daemon.StoragePath]
  let args := if daemon.StorageDriver ≠ "" then args ++ ["-s", daemon.StorageDriver] else args
  let args := if daemon.Insecure && daemon.Registry ≠ "" then
                args ++ ["--insecure-registry", daemon.Registry] else args
  let args := if daemon.IPv6 then args ++ ["--ipv6"] else args
  let args := if daemon.Mirror.length ≠ 0 then args ++ ["--registry-mirror", daemon.Mirror] else args
  let args := if daemon.Bip.length ≠ 0 then args ++ ["--bip", daemon.Bip] else args
  let args := daemon.DNS.foldl (fun a dns => a ++ ["--dns", dns]) args
  let args := daemon.DNSSearch.foldl (fun a dnsSearch => a ++ ["--dns-search", dnsSearch]) args
  let args := if daemon.MTU.length ≠ 0 then args ++ ["--mtu", daemon.MTU] else args
  let args := if daemon.Experimental then args ++ ["--experimental"] else args
  { args := dockerdExe :: args }

/-- Go `strings.ToUpper`: upper-cases each character (the proxy keys this is
applied to are ASCII). -/
def goToUpper (s : String) : String := String.mk (s.data.map Char.toUpper)

/-- Go `strings.HasPrefix`. -/
def goHasPrefix (s pre : String) : Bool := pre.data.isPrefixOf s.data

/-- `getProxyValue` (src/docker.go lines 267-275): the process environment is
modelled as a total map `env : String → String` returning `""` for an unset
variable, exactly the contract of Go `os.Getenv`. -/
def getProxyValue (env : String → String) (key : String) : String :=
  let value := env key
  if 0 < value.length then value else env (goToUpper key)

/-- `hasProxyBuildArg` (src/docker.go lines 278-288). -/
def hasProxyBuildArg (build : Build) (key : String) : Bool :=
  let keyUpper := goToUpper key
  build.Args.any (fun s => goHasPrefix s key || goHasPrefix s keyUpper)

/-- `addProxyValue` (src/docker.go lines 255-262): Go mutates `build.Args`
through a pointer; the embedding returns the updated record. -/
def addProxyValue (env : String → String) (build : Build) (key : String) : Build :=
  let value := getProxyValue env key
  if 0 < value.length && !(hasProxyBuildArg build key) then
    { build with Args := build.Args ++ [key ++ "=" ++ value, goToUpper key ++ "=" ++ value] }
  else
    build

/-- `addProxyBuildArgs` (src/docker.go lines 248-252). -/
def addProxyBuildArgs (env : String → String) (build : Build) : Build :=
  let build := addProxyValue env build "http_proxy"
  let build := addProxyValue env build "https_proxy"
  addProxyValue env build "no_proxy"

/-- One observable event of the readiness poll (src/docker.go lines 83-90):
an info-probe attempt with its index and outcome, or a sleep of the given
number of seconds (Go `time.Sleep(time.Second * 1)`). -/
inductive PollEvent where
  | attempt (i : Nat) (ok : Bool)
  | sleep (seconds : Nat)
deriving DecidableEq

/-- The readiness-poll loop body, indexed by the current loop counter `i` and
the remaining iterations `fuel`; the outcome of the `i`-th `commandInfo` run is
`infoOk i`. Mirrors `for i := 0; i < 15; i++ { run info; if ok break;
sleep 1s }` of src/docker.go lines 83-90. -/
def pollFrom (infoOk : Nat → Bool) : Nat → Nat → List PollEvent
  | _, 0 => []
  | i, fuel + 1 =>
    if infoOk i then
      [PollEvent.attempt i true]
    else
      PollEvent.attempt i false :: PollEvent.sleep 1 :: pollFrom infoOk (i + 1) fuel

/-- The full readiness poll of `Plugin.Exec`: 15 iterations starting at 0. -/
def readinessPoll (infoOk : Nat → Bool) : List PollEvent :=
  pollFrom infoOk 0 15

/-- Whether a poll event is an info-probe attempt. -/
def PollEvent.isAttempt : PollEvent → Bool
  | .attempt _ _ => true
  | .sleep _ => false

/-- Whether a poll event is a failed info-probe attempt. -/
def PollEvent.isFailedAttempt : PollEvent → Bool
  | .attempt _ ok => !ok
  | .sleep _ => false

/-- Whether a poll event is a one-second sleep. -/
def PollEvent.isOneSecondSleep : PollEvent → Bool
  | .attempt _ _ => false
  | .sleep s => s == 1

/-- Number of info-probe attempts recorded in a poll trace. -/
def countAttempts (evts : List PollEvent) : Nat :=
  evts.countP (fun e => e.isAttempt)

/-- The command batch assembled by `Plugin.Exec` after the login step
(src/docker.go lines 103-120), mirroring the imperative appends: the per-tag
loop is a `foldl` over `Tags`, exactly as the Go `for` loop extends `cmds`. -/
def buildCmds (p : Plugin) : List Cmd :=
  let cmds : List Cmd := []
  let cmds := cmds ++ [commandVersion]
  let cmds := cmds ++ [commandInfo]
  let cmds := cmds ++ [commandPull p.Pull]
  let cmds := p.Tags.foldl (fun acc tag =>
    let acc := acc ++ [commandTag p.Pull tag p.Daemon.Registry]
    if p.Dryrun = false then acc ++ [commandPush p.Pull tag p.Daemon.Registry] else acc) cmds
  if p.Cleanup then cmds ++ [commandRmi p.Pull] ++ [commandPrune] else cmds

/-- The batch-execution loop of `Plugin.Exec` (src/docker.go lines 123-134),
returning the commands actually run (in order), the informational messages
printed, and the final result (`none` = the loop finished, `some e` = it
returned error `e`). A failing command whose args satisfy `isCommandPull` is
reported with the message of line 130 (naming `cmd.Args[2]`) and execution
continues; any other failure returns immediately. -/
def runBatchT (run : Cmd → Option String) : List Cmd → List Cmd × List String × Option String
  | [] => ([], [], none)
  | c :: rest =>
    match run c with
    | some e =>
      if isCommandPull c.args then
        (c :: (runBatchT run rest).1,
         ("Could not pull cache-from image " ++ c.args.getD 2 "" ++ ". Ignoring...") ::
           (runBatchT run rest).2.1,
         (runBatchT run rest).2.2)
      else
        ([c], [], some e)
    | none =>
      (c :: (runBatchT run rest).1, (runBatchT run rest).2.1, (runBatchT run rest).2.2)

/-- The observable behaviour of one `Plugin.Exec` run. -/
structure ExecTrace where
  /-- Events of the daemon readiness poll. -/
  polls : List PollEvent
  /-- The commands run synchronously, in order (login first when present,
  then the executed prefix of the batch). -/
  executed : List Cmd
  /-- Informational messages printed to standard output. -/
  msgs : List String
  /-- `none` models `Exec` returning `nil`; `some e` models an error return. -/
  result : Option String
deriving DecidableEq

/-- `Plugin.Exec` (src/docker.go lines 75-137). The outcome of each synchronous
command run is given by the oracle `run`; the outcome of the `i`-th readiness
info probe by `infoOk i` (the probes may answer differently over time, hence
the separate oracle). The fire-and-forget daemon start of line 78 produces no
synchronous run and no observable outcome, and is not recorded. -/
def Plugin.ExecT (p : Plugin) (run : Cmd → Option String) (infoOk : Nat → Bool) : ExecTrace :=
  let polls := readinessPoll infoOk
  if p.Login.Password ≠ "" then
    match run (commandLogin p.Login) with
    | some e =>
      { polls := polls
        executed := [commandLogin p.Login]
        msgs := []
        result := some ("Error authenticating: " ++ e) }
    | none =>
      { polls := polls
        executed := commandLogin p.Login :: (runBatchT run (buildCmds p)).1
        msgs := (runBatchT run (buildCmds p)).2.1
        result := (runBatchT run (buildCmds p)).2.2 }
  else
    { polls := polls
      executed := (runBatchT run (buildCmds p)).1
      msgs := "Registry credentials not provided. Guest mode enabled." ::
        (runBatchT run (buildCmds p)).2.1
      result := (runBatchT run (buildCmds p)).2.2 }

/-- `Plugin.Exec`'s return value alone. -/
def Plugin.Exec (p : Plugin) (run : Cmd → Option String) (infoOk : Nat → Bool) : Option String :=
  (p.ExecT run infoOk).result

/-- A configuration whose source-image pull fails: one destination tag, no
dry-run, no cleanup, guest mode. -/
def pullFailPlugin : Plugin :=
  { Pull := { Repo := "acct/img", Sha := "sha256:abc" }
    Tags := ["v1"] }

/-- A run oracle on which exactly the source-image pull exits non-zero. -/
def pullFailRun : Cmd → Option String :=
  fun c => if c = commandPull pullFailPlugin.Pull then some "exit status 1" else none

/-- A configuration with credentials, one tag and a failing source pull. -/
def mainPullPlugin : Plugin :=
  { Pull := { Repo := "acct/img", Sha := "sha256:abc" }
    Tags := ["v1"]
    Login := { Registry := "reg", Username := "u", Password := "pw" } }

/-- A run oracle failing exactly on the main pull of `mainPullPlugin`. -/
def mainPullRun : Cmd → Option String :=
  fun c => if c = commandPull mainPullPlugin.Pull then some "manifest unknown" else none

/-- A configuration with credentials whose login command will fail. -/
def loginFailPlugin : Plugin :=
  { Login := { Registry := "reg", Username := "u", Password := "pw" }
    Pull := { Repo := "r", Sha := "s" } }

/-- A run oracle failing exactly on the login command. -/
def loginFailRun : Cmd → Option String :=
  fun c => if c = commandLogin loginFailPlugin.Login then some "denied" else none

/-- A login configuration whose username and registry coincide with the
password value. -/
def samePasswordLogin : Login :=
  { Registry := "x", Username := "x", Password := "x", Email := "" }

/-- An environment defining only the upper-case `HTTP_PROXY` key. -/
def proxyEnv : String → String := fun k => if k = "HTTP_PROXY" then "foo" else ""

/-! ## Helper lemmas -/

/-- A string is non-empty exactly when its length is positive (bridging the
Go `len(value) > 0` tests to string inequality). -/
lemma string_ne_empty_iff_length_pos (s : String) : s ≠ "" ↔ 0 < s.length := by
  cases s with
  | mk data =>
    cases data with
    | nil => simp
    | cons c cs => simp [String.ext_iff]

/-- Conditionally extending an accumulator is appending a conditional chunk. -/
lemma ite_append_extend {α : Type} (c : Prop) [Decidable c] (a x : List α) :
    (if c then a ++ x else a) = a ++ (if c then x else []) := by
  split <;> simp

/-- Folding an append-only body over a list is appending the flat map. -/
lemma foldl_append_bind {α β : Type} (g : α → List β) :
    ∀ (l : List α) (acc : List β),
      l.foldl (fun a x => a ++ g x) acc = acc ++ l.flatMap g
  | [], acc => by simp
  | x :: l, acc => by
    simp only [List.foldl_cons, List.flatMap_cons, foldl_append_bind g l, List.append_assoc]

/-! ## Claim theorems -/

/-- C7: for every `Pull` configuration, the pull command's image target equals
`Repo ++ "@" ++ Sha` exactly (no added whitespace), and the very same string is
the tag command's source (argument 2) and the remove-image command's target. -/
theorem pull_target_is_repo_at_sha (pull : Pull) (tag registry : String) :
    (commandPull pull).args = [dockerExe, "pull", pull.Repo ++ "@" ++ pull.Sha] ∧
    (commandTag pull tag registry).args.getD 2 "" = pull.Repo ++ "@" ++ pull.Sha ∧
    (commandRmi pull).args = [dockerExe, "rmi", pull.Repo ++ "@" ++ pull.Sha] :=
  ⟨rfl, rfl, rfl⟩

/-- C8: for every tag and registry, the tag command's destination equals
`registry ++ "/" ++ Repo ++ ":" ++ tag`, the push command targets the identical
string, and with an empty registry the leading `/` is preserved as-is. -/
theorem tag_push_destination (pull : Pull) (tag registry : String) :
    (commandTag pull tag registry).args =
      [dockerExe, "tag", pull.Repo ++ "@" ++ pull.Sha,
       registry ++ "/" ++ pull.Repo ++ ":" ++ tag] ∧
    (commandPush pull tag registry).args =
      [dockerExe, "push", registry ++ "/" ++ pull.Repo ++ ":" ++ tag] ∧
    (commandTag pull tag registry).args.getD 3 "" =
      (commandPush pull tag registry).args.getD 2 "" ∧
    (commandTag pull tag "").args.getD 3 "" = "/" ++ pull.Repo ++ ":" ++ tag := by
  refine ⟨rfl, rfl, rfl, ?_⟩
  simp [commandTag]

/-- C10 counterexample: on the all-default `Daemon` configuration the
storage-path flag `--data-root` is emitted even though the storage path is
empty, so the daemon invocation is not flag-free for default fields. -/
theorem daemon_empty_storage_path_flag :
    ({} : Daemon).StoragePath = "" ∧
    "--data-root" ∈ (commandDaemon {}).args ∧
    (commandDaemon ({} : Daemon)).args = [dockerdExe, "--data-root", ""] := by
  refine ⟨rfl, ?_, rfl⟩
  simp [commandDaemon, dockerdExe]

/-- C10 amended: every `Daemon` field other than the storage path is rendered
conditionally — its flag is omitted when the field is empty, false or zero
(the insecure-registry flag additionally requires a non-empty registry, and
the debug and disabled fields never produce a flag) — while the `--data-root`
flag is always emitted together with the (possibly empty) storage path. -/
theorem daemon_flags_conditional (d : Daemon) :
    (commandDaemon d).args =
      [dockerdExe, "--data-root", d.StoragePath]
        ++ (if d.StorageDriver ≠ "" then ["-s", d.StorageDriver] else [])
        ++ (if d.Insecure ∧ d.Registry ≠ "" then ["--insecure-registry", d.Registry] else [])
        ++ (if d.IPv6 then ["--ipv6"] else [])
        ++ (if d.Mirror ≠ "" then ["--registry-mirror", d.Mirror] else [])
        ++ (if d.Bip ≠ "" then ["--bip", d.Bip] else [])
        ++ d.DNS.flatMap (fun dns => ["--dns", dns])
        ++ d.DNSSearch.flatMap (fun dnsSearch => ["--dns-search", dnsSearch])
        ++ (if d.MTU ≠ "" then ["--mtu", d.MTU] else [])
        ++ (if d.Experimental then ["--experimental"] else []) := by
  have hm : (d.Mirror.length ≠ 0) ↔ d.Mirror ≠ "" := by
    rw [string_ne_empty_iff_length_pos, Nat.pos_iff_ne_zero]
  have hb : (d.Bip.length ≠ 0) ↔ d.Bip ≠ "" := by
    rw [string_ne_empty_iff_length_pos, Nat.pos_iff_ne_zero]
  have hu : (d.MTU.length ≠ 0) ↔ d.MTU ≠ "" := by
    rw [string_ne_empty_iff_length_pos, Nat.pos_iff_ne_zero]
  simp only [commandDaemon]
  rw [ite_append_extend, ite_append_extend, foldl_append_bind, foldl_append_bind,
    ite_append_extend, ite_append_extend, ite_append_extend, ite_append_extend,
    ite_append_extend]
  simp only [Bool.and_eq_true, decide_eq_true_eq, hm, hb, hu, Cmd.mk.injEq,
    List.append_assoc, List.cons_append, List.nil_append]

/-- The per-tag loop of `Plugin.Exec` (src/docker.go lines 109-115) seen as a
fold produces, for each tag in order, the tag command followed by the push
command unless `Dryrun` is set. -/
lemma buildCmds_foldl (p : Plugin) (tags : List String) (acc : List Cmd) :
    tags.foldl (fun cmds tag =>
      let cmds' := cmds ++ [commandTag p.Pull tag p.Daemon.Registry]
      if p.Dryrun = false then cmds' ++ [commandPush p.Pull tag p.Daemon.Registry] else cmds')
      acc
    = acc ++ tags.flatMap (fun tag =>
        commandTag p.Pull tag p.Daemon.Registry ::
          (if p.Dryrun then [] else [commandPush p.Pull tag p.Daemon.Registry])) := by
  induction tags generalizing acc with
  | nil => simp
  | cons t ts ih =>
    have hstep : (let cmds' := acc ++ [commandTag p.Pull t p.Daemon.Registry];
        if p.Dryrun = false then cmds' ++ [commandPush p.Pull t p.Daemon.Registry] else cmds')
        = acc ++ (commandTag p.Pull t p.Daemon.Registry ::
            (if p.Dryrun then [] else [commandPush p.Pull t p.Daemon.Registry])) := by
      by_cases hd : p.Dryrun <;> simp [hd, List.append_assoc]
    rw [List.foldl_cons, hstep, ih, List.flatMap_cons]
    simp [List.append_assoc]

/-- If every command of the batch that exits non-zero is classified by
`isCommandPull`, the batch loop finishes without returning an error. -/
lemma runBatchT_result_none (run : Cmd → Option String) :
    ∀ cmds : List Cmd, (∀ c ∈ cmds, run c = none ∨ isCommandPull c.args = true) →
      (runBatchT run cmds).2.2 = none := by
  intro cmds
  induction cmds with
  | nil => intro h; rfl
  | cons c rest ih =>
    intro h
    have hrest : ∀ x ∈ rest, run x = none ∨ isCommandPull x.args = true :=
      fun x hx => h x (List.mem_cons_of_mem c hx)
    rcases h c (List.mem_cons_self c rest) with hc | hc
    · simp [runBatchT, hc, ih hrest]
    · cases hrun : run c with
      | none => simp [runBatchT, hrun, ih hrest]
      | some e => simp [runBatchT, hrun, hc, ih hrest]

/-- Every command the batch loop actually runs comes from the batch. -/
lemma runBatchT_executed_mem (run : Cmd → Option String) :
    ∀ (cmds : List Cmd) (c : Cmd), c ∈ (runBatchT run cmds).1 → c ∈ cmds := by
  intro cmds
  induction cmds with
  | nil => intro c hc; simp [runBatchT] at hc
  | cons d rest ih =>
    intro c hc
    cases hrun : run d with
    | none =>
      simp only [runBatchT, hrun] at hc
      rcases List.mem_cons.mp hc with hc | hc
      · exact hc ▸ List.mem_cons_self _ _
      · exact List.mem_cons_of_mem _ (ih c hc)
    | some e =>
      by_cases hp : isCommandPull d.args
      · simp [runBatchT, hrun, hp] at hc
        rcases hc with hc | hc
        · exact hc ▸ List.mem_cons_self _ _
        · exact List.mem_cons_of_mem _ (ih c hc)
      · simp [runBatchT, hrun, hp] at hc
        exact hc ▸ List.mem_cons_self _ _

/-- C1 counterexample: the batch's single pull command — the real pull of the
source image, not a cache-source pull — exits non-zero, yet `Exec` does not
abort: it continues through the whole batch (tag and push included) and
returns no error, contradicting the claim that for the real pull a non-zero
exit aborts the run and propagates the error. -/
theorem real_pull_failure_not_fatal :
    pullFailRun (commandPull pullFailPlugin.Pull) = some "exit status 1" ∧
    commandPull pullFailPlugin.Pull ∈ buildCmds pullFailPlugin ∧
    pullFailPlugin.Exec pullFailRun (fun _ => true) = none ∧
    (pullFailPlugin.ExecT pullFailRun (fun _ => true)).executed = buildCmds pullFailPlugin := by
  decide

/-- C1 amended: in the executed batch a non-zero exit status is swallowed
exactly when the command's argument vector satisfies `isCommandPull` (longer
than 2 with second element `pull`) — a class that contains the batch's one
real source-image pull, since no cache-source pulls occur in this batch — and
for every command outside that class (every tag, push, version, info,
remove-image and prune command) a non-zero exit aborts the run immediately,
propagating the underlying error. -/
theorem exec_failure_policy (run : Cmd → Option String) (c : Cmd) (rest : List Cmd)
    (e : String) (h : run c = some e) :
    (isCommandPull c.args = false → runBatchT run (c :: rest) = ([c], [], some e)) ∧
    (isCommandPull c.args = true →
       runBatchT run (c :: rest) =
         (c :: (runBatchT run rest).1,
          ("Could not pull cache-from image " ++ c.args.getD 2 "" ++ ". Ignoring...") ::
            (runBatchT run rest).2.1,
          (runBatchT run rest).2.2)) ∧
    (∀ pull : Pull, isCommandPull (commandPull pull).args = true) ∧
    (∀ (pull : Pull) (tag registry : String),
       isCommandPull (commandTag pull tag registry).args = false ∧
       isCommandPull (commandPush pull tag registry).args = false) ∧
    isCommandPull commandVersion.args = false ∧
    isCommandPull commandInfo.args = false ∧
    (∀ pull : Pull, isCommandPull (commandRmi pull).args = false) ∧
    isCommandPull commandPrune.args = false := by
  refine ⟨?_, ?_, fun pull => rfl, fun pull tag registry => ⟨rfl, rfl⟩, rfl, rfl,
    fun pull => rfl, rfl⟩
  · intro hp
    simp [runBatchT, h, hp]
  · intro hp
    simp [runBatchT, h, hp]

/-- C1 amended witness: a failing tag command (not a pull) aborts the batch at
once with the underlying error. -/
theorem exec_failure_policy_witness :
    runBatchT (fun _ => some "boom")
        [commandTag { Repo := "r", Sha := "s" } "t" "reg", commandPrune] =
      ([commandTag { Repo := "r", Sha := "s" } "t" "reg"], [], some "boom") :=
  (exec_failure_policy (fun _ => some "boom")
    (commandTag { Repo := "r", Sha := "s" } "t" "reg") [commandPrune] "boom" rfl).1 rfl

/-- C3: the pull command `Exec` puts in the batch satisfies the cache-pull
classifier `isCommandPull`, so when the main source-image pull is the only
failing command of a run (the login probe succeeding as well), `Exec` emits
the informational message path and returns no error: a failure of the main
pull never by itself makes `Exec` fail. -/
theorem main_pull_failure_swallowed (p : Plugin) (run : Cmd → Option String)
    (infoOk : Nat → Bool) (e : String)
    (hpull : run (commandPull p.Pull) = some e)
    (hlogin : run (commandLogin p.Login) = none)
    (hothers : ∀ c ∈ buildCmds p, c ≠ commandPull p.Pull → run c = none) :
    isCommandPull (commandPull p.Pull).args = true ∧ p.Exec run infoOk = none := by
  have hall : ∀ c ∈ buildCmds p, run c = none ∨ isCommandPull c.args = true := by
    intro c hc
    by_cases hcp : c = commandPull p.Pull
    · right; rw [hcp]; rfl
    · left; exact hothers c hc hcp
  have hres := runBatchT_result_none run (buildCmds p) hall
  refine ⟨rfl, ?_⟩
  unfold Plugin.Exec Plugin.ExecT
  by_cases hpw : p.Login.Password ≠ ""
  · simp [hpw, hlogin, hres]
  · simp [hpw, hres]

/-- C3 witness: on a concrete configuration whose main pull fails and whose
other commands succeed, `Exec` returns no error. -/
theorem main_pull_failure_swallowed_witness :
    mainPullPlugin.Exec mainPullRun (fun _ => true) = none :=
  (main_pull_failure_swallowed mainPullPlugin mainPullRun (fun _ => true)
    "manifest unknown" (by decide) (by decide) (by decide)).2

/-- The batch of `Plugin.Exec` in closed form. -/
lemma buildCmds_eq (p : Plugin) :
    buildCmds p =
      [commandVersion, commandInfo, commandPull p.Pull]
        ++ p.Tags.flatMap (fun tag =>
            commandTag p.Pull tag p.Daemon.Registry ::
              (if p.Dryrun then [] else [commandPush p.Pull tag p.Daemon.Registry]))
        ++ (if p.Cleanup then [commandRmi p.Pull, commandPrune] else []) := by
  simp only [buildCmds, List.nil_append]
  rw [buildCmds_foldl]
  by_cases hc : p.Cleanup <;> simp [hc, List.append_assoc]

/-- No command of the batch is a login invocation: each one's second argument
is a fixed subcommand different from `login`. -/
lemma buildCmds_second_arg (p : Plugin) :
    ∀ c ∈ buildCmds p, c.args.getD 1 "" ≠ "login" := by
  intro c hc
  rw [buildCmds_eq] at hc
  simp only [List.mem_append, List.mem_flatMap, List.mem_cons, List.not_mem_nil,
    or_false] at hc
  rcases hc with (hc | ⟨tag, _, hc⟩) | hc
  · rcases hc with hc | hc | hc <;> subst hc
    · show ("version" : String) ≠ "login"; decide
    · show ("info" : String) ≠ "login"; decide
    · show ("pull" : String) ≠ "login"; decide
  · rcases hc with hc | hc
    · subst hc; show ("tag" : String) ≠ "login"; decide
    · by_cases hd : p.Dryrun
      · simp [hd] at hc
      · simp [hd] at hc; subst hc; show ("push" : String) ≠ "login"; decide
  · by_cases hcl : p.Cleanup
    · simp [hcl] at hc
      rcases hc with hc | hc <;> subst hc
      · show ("rmi" : String) ≠ "login"; decide
      · show ("system" : String) ≠ "login"; decide
    · simp [hcl] at hc

/-- C4: with a non-empty password the login command runs first and a non-zero
exit aborts the run with an error wrapping the underlying one as an
authentication error; with an empty password no login command is run, the
guest-mode notice is emitted, and the run's outcome is exactly the batch's
outcome (the missing login itself causes no error). -/
theorem login_gating (p : Plugin) (run : Cmd → Option String) (infoOk : Nat → Bool) :
    (p.Login.Password ≠ "" →
       (p.ExecT run infoOk).executed.head? = some (commandLogin p.Login) ∧
       (∀ e, run (commandLogin p.Login) = some e →
          (p.ExecT run infoOk).result = some ("Error authenticating: " ++ e) ∧
          (p.ExecT run infoOk).executed = [commandLogin p.Login])) ∧
    (p.Login.Password = "" →
       (∀ c ∈ (p.ExecT run infoOk).executed, c.args.getD 1 "" ≠ "login") ∧
       "Registry credentials not provided. Guest mode enabled." ∈ (p.ExecT run infoOk).msgs ∧
       (p.ExecT run infoOk).result = (runBatchT run (buildCmds p)).2.2) := by
  constructor
  · intro hpw
    constructor
    · unfold Plugin.ExecT
      cases hrun : run (commandLogin p.Login) <;> simp [hpw, hrun]
    · intro e he
      unfold Plugin.ExecT
      simp [hpw, he]
  · intro hpw
    have hnologin : ∀ c ∈ (runBatchT run (buildCmds p)).1, c.args.getD 1 "" ≠ "login" :=
      fun c hc => buildCmds_second_arg p c (runBatchT_executed_mem run (buildCmds p) c hc)
    have hdef : p.ExecT run infoOk =
        { polls := readinessPoll infoOk
          executed := (runBatchT run (buildCmds p)).1
          msgs := "Registry credentials not provided. Guest mode enabled." ::
            (runBatchT run (buildCmds p)).2.1
          result := (runBatchT run (buildCmds p)).2.2 } := by
      unfold Plugin.ExecT
      rw [if_neg (by simp [hpw])]
    rw [hdef]
    exact ⟨hnologin, List.mem_cons_self _ _, rfl⟩

/-- C4 witness: on a concrete configuration with a password and a failing
login, the run aborts with the wrapped authentication error. -/
theorem login_gating_witness :
    (loginFailPlugin.ExecT loginFailRun (fun _ => true)).result =
      some ("Error authenticating: " ++ "denied") :=
  (((login_gating loginFailPlugin loginFailRun (fun _ => true)).1 (by decide)).2 "denied"
    (by decide)).1

/-- C5 counterexample: when another field carries the same string as the
password, the password value does appear in the login argument list (here as
the username and registry), refuting the claim that for every configuration
the argument list never contains the password value. -/
theorem login_password_value_in_args :
    samePasswordLogin.Password ∈ (commandLogin samePasswordLogin).args := by decide

/-- C5 amended: the login argument list is exactly
`[exe, "login", "-u", Username, "--password-stdin"]`, extended by the
`-e`/Email pair exactly when `Email` is non-empty, and ending in `Registry`;
the `Password` field itself is never placed as an argument — it is delivered
exclusively as the standard-input payload — so the password value occurs among
the arguments only when it coincides with one of the fixed tokens or with the
`Username`, `Email` or `Registry` value. -/
theorem login_args_shape (login : Login) :
    (commandLogin login).args =
      [dockerExe, "login", "-u", login.Username, "--password-stdin"]
        ++ (if login.Email ≠ "" then ["-e", login.Email] else [])
        ++ [login.Registry] ∧
    (commandLogin login).stdin = some login.Password ∧
    (login.Password ∉ [dockerExe, "login", "-u", "--password-stdin", "-e",
                       login.Username, login.Email, login.Registry] →
       login.Password ∉ (commandLogin login).args) := by
  by_cases he : login.Email = ""
  · refine ⟨by simp [commandLogin, commandLoginEmail, he],
      by simp [commandLogin, commandLoginEmail, he], ?_⟩
    intro hnot hmem
    simp [commandLogin, commandLoginEmail, he] at hmem
    simp at hnot
    tauto
  · refine ⟨by simp [commandLogin, commandLoginEmail, he],
      by simp [commandLogin, commandLoginEmail, he], ?_⟩
    intro hnot hmem
    simp [commandLogin, commandLoginEmail, he] at hmem
    simp at hnot
    tauto

/-- C5 amended witness: for a concrete configuration whose password collides
with no other field, the password is absent from the argument list. -/
theorem login_args_shape_witness :
    ("secret" : String) ∉
      (commandLogin
        { Registry := "reg", Username := "user", Password := "secret", Email := "me" }).args :=
  (login_args_shape
    { Registry := "reg", Username := "user", Password := "secret", Email := "me" }).2.2
    (by decide)

/-- `isAttempt` on an attempt event. -/
@[simp] lemma isAttempt_attempt (i : Nat) (ok : Bool) :
    (PollEvent.attempt i ok).isAttempt = true := rfl

/-- `isAttempt` on a sleep event. -/
@[simp] lemma isAttempt_sleep (s : Nat) : (PollEvent.sleep s).isAttempt = false := rfl

/-- `isFailedAttempt` on an attempt event. -/
@[simp] lemma isFailedAttempt_attempt (i : Nat) (ok : Bool) :
    (PollEvent.attempt i ok).isFailedAttempt = !ok := rfl

/-- `isFailedAttempt` on a sleep event. -/
@[simp] lemma isFailedAttempt_sleep (s : Nat) :
    (PollEvent.sleep s).isFailedAttempt = false := rfl

/-- `isOneSecondSleep` on an attempt event. -/
@[simp] lemma isOneSecondSleep_attempt (i : Nat) (ok : Bool) :
    (PollEvent.attempt i ok).isOneSecondSleep = false := rfl

/-- `isOneSecondSleep` on a sleep event. -/
@[simp] lemma isOneSecondSleep_sleep (s : Nat) :
    (PollEvent.sleep s).isOneSecondSleep = (s == 1) := rfl

/-- The poll loop makes at most `fuel` info-probe attempts. -/
lemma countAttempts_pollFrom_le (infoOk : Nat → Bool) :
    ∀ (fuel i : Nat), countAttempts (pollFrom infoOk i fuel) ≤ fuel := by
  intro fuel
  induction fuel with
  | zero => intro i; simp [pollFrom, countAttempts]
  | succ f ih =>
    intro i
    by_cases h : infoOk i
    · simp [pollFrom, h, countAttempts, List.countP_cons]
    · have := ih (i + 1)
      simp [pollFrom, h, countAttempts, List.countP_cons] at this ⊢
      omega

/-- If the probe first succeeds at attempt `k` (counting from the loop start),
the poll makes exactly `k + 1` attempts. -/
lemma countAttempts_pollFrom_first_success (infoOk : Nat → Bool) :
    ∀ (k fuel i : Nat), infoOk (i + k) = true → (∀ j, j < k → infoOk (i + j) = false) →
      k < fuel → countAttempts (pollFrom infoOk i fuel) = k + 1 := by
  intro k
  induction k with
  | zero =>
    intro fuel i hk _ hlt
    cases fuel with
    | zero => omega
    | succ f =>
      rw [Nat.add_zero] at hk
      simp [pollFrom, hk, countAttempts, PollEvent.isAttempt]
  | succ k ih =>
    intro fuel i hk hj hlt
    cases fuel with
    | zero => omega
    | succ f =>
      have h0 : infoOk i = false := by
        have := hj 0 (Nat.succ_pos k)
        rwa [Nat.add_zero] at this
      have hk' : infoOk (i + 1 + k) = true := by
        have harith : i + 1 + k = i + (k + 1) := by omega
        rw [harith]; exact hk
      have hj' : ∀ j, j < k → infoOk (i + 1 + j) = false := by
        intro j hjk
        have harith : i + 1 + j = i + (j + 1) := by omega
        rw [harith]; exact hj (j + 1) (by omega)
      have hrec := ih f (i + 1) hk' hj' (by omega)
      simp [pollFrom, h0, countAttempts, List.countP_cons, PollEvent.isAttempt] at hrec ⊢
      omega

/-- If every probe in range fails, the poll makes exactly `fuel` attempts. -/
lemma countAttempts_pollFrom_all_fail (infoOk : Nat → Bool) :
    ∀ (fuel i : Nat), (∀ j, j < fuel → infoOk (i + j) = false) →
      countAttempts (pollFrom infoOk i fuel) = fuel := by
  intro fuel
  induction fuel with
  | zero => intro i _; simp [pollFrom, countAttempts]
  | succ f ih =>
    intro i h
    have h0 : infoOk i = false := by
      have := h 0 (Nat.succ_pos f)
      rwa [Nat.add_zero] at this
    have hrest : ∀ j, j < f → infoOk (i + 1 + j) = false := by
      intro j hj
      have harith : i + 1 + j = i + (j + 1) := by omega
      rw [harith]; exact h (j + 1) (by omega)
    have hrec := ih (i + 1) hrest
    simp [pollFrom, h0, countAttempts, List.countP_cons, PollEvent.isAttempt] at hrec ⊢
    omega

/-- Each failed attempt is followed by exactly one one-second sleep. -/
lemma pollFrom_sleep_count (infoOk : Nat → Bool) :
    ∀ (fuel i : Nat),
      (pollFrom infoOk i fuel).countP (fun e => e.isOneSecondSleep) =
        (pollFrom infoOk i fuel).countP (fun e => e.isFailedAttempt) := by
  intro fuel
  induction fuel with
  | zero => intro i; simp [pollFrom]
  | succ f ih =>
    intro i
    by_cases h : infoOk i <;>
      simp [pollFrom, h, List.countP_cons, ih (i + 1)]

/-- C6: the readiness poll attempts the info probe at most 15 times, makes
exactly `k + 1` attempts when the probe first succeeds at attempt `k < 15`,
makes exactly 15 attempts when the probe never succeeds, pairs every failed
attempt with a one-second sleep, and its outcome never influences the result
of `Exec` — in particular exhausting all 15 attempts does not make `Exec`
return an error. -/
theorem readiness_poll_bounded (infoOk : Nat → Bool) (p : Plugin)
    (run : Cmd → Option String) :
    countAttempts (readinessPoll infoOk) ≤ 15 ∧
    (∀ k, k < 15 → infoOk k = true → (∀ j, j < k → infoOk j = false) →
       countAttempts (readinessPoll infoOk) = k + 1) ∧
    ((∀ i, i < 15 → infoOk i = false) → countAttempts (readinessPoll infoOk) = 15) ∧
    (readinessPoll infoOk).countP (fun e => e.isOneSecondSleep) =
      (readinessPoll infoOk).countP (fun e => e.isFailedAttempt) ∧
    (p.ExecT run infoOk).result = (p.ExecT run (fun _ => false)).result := by
  refine ⟨countAttempts_pollFrom_le infoOk 15 0, ?_, ?_, pollFrom_sleep_count infoOk 15 0, ?_⟩
  · intro k hk hsucc hfail
    exact countAttempts_pollFrom_first_success infoOk k 15 0
      (by rwa [Nat.zero_add]) (fun j hj => by rw [Nat.zero_add]; exact hfail j hj) hk
  · intro hfail
    exact countAttempts_pollFrom_all_fail infoOk 15 0
      (fun j hj => by rw [Nat.zero_add]; exact hfail j hj)
  · unfold Plugin.ExecT
    by_cases hpw : p.Login.Password ≠ ""
    · rw [if_pos hpw, if_pos hpw]
      cases run (commandLogin p.Login) <;> rfl
    · rw [if_neg hpw, if_neg hpw]

/-- C6 witness: with a probe that first succeeds on attempt 2, the poll makes
exactly 3 attempts. -/
theorem readiness_poll_bounded_witness :
    countAttempts (readinessPoll (fun i => decide (i = 2))) = 3 :=
  (readiness_poll_bounded (fun i => decide (i = 2)) {} (fun _ => none)).2.1 2
    (by decide) (by decide) (by decide)

/-- `hasProxyBuildArg` holds exactly when some existing build argument starts
with the lower- or upper-case form of the key. -/
lemma hasProxyBuildArg_eq_true_iff (build : Build) (key : String) :
    hasProxyBuildArg build key = true ↔
      ∃ s ∈ build.Args, goHasPrefix s key = true ∨ goHasPrefix s (goToUpper key) = true := by
  simp [hasProxyBuildArg, List.any_eq_true]

/-- C9: if the environment defines the proxy key (lower-case checked first,
falling back to upper-case) and no existing build argument starts with either
case of the key, the augmenter appends `key=value` then `KEY=value` (in that
order) to the build argument list; if some build argument already starts with
either case of the key, nothing is appended. -/
theorem proxy_augmentation (env : String → String) (build : Build) (key : String) :
    ((env key ≠ "" ∨ env (goToUpper key) ≠ "") →
     (∀ s ∈ build.Args, goHasPrefix s key = false ∧ goHasPrefix s (goToUpper key) = false) →
       (addProxyValue env build key).Args =
         build.Args ++ [key ++ "=" ++ getProxyValue env key,
                        goToUpper key ++ "=" ++ getProxyValue env key] ∧
       (env key ≠ "" → getProxyValue env key = env key) ∧
       (env key = "" → getProxyValue env key = env (goToUpper key))) ∧
    ((∃ s ∈ build.Args, goHasPrefix s key = true ∨ goHasPrefix s (goToUpper key) = true) →
       addProxyValue env build key = build) := by
  have hget1 : env key ≠ "" → getProxyValue env key = env key := by
    intro h
    simp [getProxyValue, (string_ne_empty_iff_length_pos (env key)).mp h]
  have hget2 : env key = "" → getProxyValue env key = env (goToUpper key) := by
    intro h; simp [getProxyValue, h]
  constructor
  · intro h1 h2
    have hno : hasProxyBuildArg build key = false := by
      rw [Bool.eq_false_iff, Ne, hasProxyBuildArg_eq_true_iff]
      rintro ⟨s, hs, hpre⟩
      rcases hpre with hpre | hpre <;> have := h2 s hs <;> simp_all
    have hpos : 0 < (getProxyValue env key).length := by
      rcases h1 with h | h
      · rw [← string_ne_empty_iff_length_pos, hget1 h]; exact h
      · by_cases hk : env key = ""
        · rw [← string_ne_empty_iff_length_pos, hget2 hk]; exact h
        · rw [← string_ne_empty_iff_length_pos, hget1 hk]; exact hk
    refine ⟨?_, hget1, hget2⟩
    simp [addProxyValue, hpos, hno]
  · rintro ⟨s, hs, hpre⟩
    have hyes : hasProxyBuildArg build key = true :=
      (hasProxyBuildArg_eq_true_iff build key).mpr ⟨s, hs, hpre⟩
    simp [addProxyValue, hyes]

/-- C9 witness: with `HTTP_PROXY=foo` in the environment and no proxy build
argument present, the augmenter appends `http_proxy=foo` then
`HTTP_PROXY=foo`. -/
theorem proxy_augmentation_witness :
    (addProxyValue proxyEnv { Args := ["--no-cache"] } "http_proxy").Args =
      ["--no-cache", "http_proxy=foo", "HTTP_PROXY=foo"] := by
  rw [((proxy_augmentation proxyEnv { Args := ["--no-cache"] } "http_proxy").1
      (by decide) (by decide)).1]
  decide

/-- C2: for every configuration, the post-login batch is exactly, in order:
version probe, info probe, one pull, then per tag (in list order) one tag
command followed by one push command unless `Dryrun`, and finally, when
`Cleanup`, one remove-image command and one prune command — nothing else. -/
theorem exec_batch_order (p : Plugin) :
    buildCmds p =
      [commandVersion, commandInfo, commandPull p.Pull]
        ++ p.Tags.flatMap (fun tag =>
            commandTag p.Pull tag p.Daemon.Registry ::
              (if p.Dryrun then [] else [commandPush p.Pull tag p.Daemon.Registry]))
        ++ (if p.Cleanup then [commandRmi p.Pull, commandPrune] else []) :=
  buildCmds_eq p

end DroneDockerhubEcr
